import Mathlib

/-! Verification development for the BLDC motor commutation core in
src/software/motorBldc.c. The C globals BLDC_motor and BLDC_command are
modelled as explicit state records threaded through each operation; GPIO,
ADC and the millisecond clock are modelled as inputs; MPWM duty-cycle
programming is modelled as a list of emitted commands. The millisecond
clock is read as a single value per entry into an operation, reflecting
that an interrupt handler runs far faster than the 1 ms clock tick.
Machine integers are Nat (resp. Int for the int8_t sector) with explicit
mod 65536 where uint16_t truncation matters. C array indexing that would
be out of range (undefined behavior) is totalized with Option: a none
result marks an access the hardware code must never perform. -/

/-- Motor state machine states BLDC_STOPPED, BLDC_STARTING, BLDC_RUNNING, BLDC_LOCKED. -/
inductive MotorState where
  | stopped
  | starting
  | running
  | locked
deriving DecidableEq

/-- Motor direction values BLDC_POS and BLDC_NEG. -/
inductive Direction where
  | pos
  | neg
deriving DecidableEq

/-- Position sensor kind BLDC_SENSORLESS or BLDC_HALL. -/
inductive Sensor where
  | sensorless
  | hall
deriving DecidableEq

/-- Motor phases MPWM_PH_A, MPWM_PH_B, MPWM_PH_C. -/
inductive Phase where
  | phA
  | phB
  | phC
deriving DecidableEq

/-- PWM drive mode MPWM_DORMANT or MPWM_HI_STATE. -/
inductive PwmMode where
  | dormantMode
  | hiState
deriving DecidableEq

/-- One MPWM_setPhaseDutyCycle call: target phase (none models an
out-of-range phase-table read, i.e. C undefined behavior), mode, duty. -/
abbrev PwmCmd := Option Phase × PwmMode × Nat

/-- The _bldc_motor aggregate (global BLDC_motor). The dormant-phase
pointer is modelled as an Option Phase tag; the 8-entry hallToSector
array as a function on Nat (only ever indexed with a 3-bit value). -/
structure Motor where
  state : MotorState
  sector : Int
  dutyCycle : Nat
  startTimeAbs : Nat
  startCommutationTimeAbs : Nat
  lockUntilTimeAbs : Nat
  phaseA : Nat
  phaseB : Nat
  phaseC : Nat
  dormantPhasePtr : Option Phase
  direction : Direction
  sensor : Sensor
  hallToSector : Nat → Nat

/-- The _bldc_motor_command aggregate (global BLDC_command). -/
structure Command where
  direction : Direction
  dutyCycle : Nat

/-- The static 12 x 8 hallToSector table (source lines 52-63). -/
def hallToSectorRows : List (List Nat) :=
  [[6,1,3,2,5,0,4,6],
   [6,0,2,1,4,5,3,6],
   [6,5,1,0,3,4,2,6],
   [6,4,0,5,2,3,1,6],
   [6,3,5,4,1,2,0,6],
   [6,2,4,3,0,1,5,6],
   [6,4,2,3,0,5,1,6],
   [6,3,1,2,5,4,0,6],
   [6,2,0,1,4,3,5,6],
   [6,1,5,0,3,2,4,6],
   [6,0,4,5,2,1,3,6],
   [6,5,3,4,1,0,2,6]]

/-- Lookup into the static table: row t, entry i. -/
def hallToSectorTable (t : Fin 12) (i : Nat) : Nat :=
  (hallToSectorRows.getD t.val []).getD i 0

/-- The 3-bit hall code assembled from the three hall inputs
(bit 0 from port B pin 0, bit 1 from pin 1, bit 2 from pin 2). -/
def hallCode (h0 h1 h2 : Bool) : Nat :=
  (if h0 then 1 else 0) + (if h1 then 2 else 0) + (if h2 then 4 else 0)

/-- Modelled from the spec: BLDC_MIN_DUTY_CYCLE, the fixed minimum
startup duty cycle defined in motorBldc.h (header not under src/); the
spec fixes only that it is a constant independent of the commanded duty. -/
def BLDC_MIN_DUTY_CYCLE : Nat := 3277

/-- Sector-advance step of BLDC_commutate (source lines 307-320):
increment and wrap to 0 above 5 for BLDC_POS, decrement and wrap to 5
below 0 otherwise. The test is on the stepped value, exactly as the C
pre-increment form writes it. -/
def advanceSector (d : Direction) (s : Int) : Int :=
  match d with
  | .pos => if s + 1 > 5 then 0 else s + 1
  | .neg => if s - 1 < 0 then 5 else s - 1

/-- hiPhaseTable of BLDC_commutate (source line 334); none models an
out-of-range read. -/
def hiPhaseTable (s : Int) : Option Phase :=
  if s = 0 then some .phA else if s = 1 then some .phA
  else if s = 2 then some .phB else if s = 3 then some .phB
  else if s = 4 then some .phC else if s = 5 then some .phC
  else none

/-- loPhaseTable of BLDC_commutate (source line 335). -/
def loPhaseTable (s : Int) : Option Phase :=
  if s = 0 then some .phB else if s = 1 then some .phC
  else if s = 2 then some .phC else if s = 3 then some .phA
  else if s = 4 then some .phA else if s = 5 then some .phB
  else none

/-- dormantPhaseTable of BLDC_commutate (source line 336). -/
def dormantPhaseTable (s : Int) : Option Phase :=
  if s = 0 then some .phC else if s = 1 then some .phB
  else if s = 2 then some .phA else if s = 3 then some .phC
  else if s = 4 then some .phB else if s = 5 then some .phA
  else none

/-- highSideDutyCycle computation of BLDC_commutate (source line 340):
32767 + (dutyCycle >> 1), stored into a uint16_t. -/
def highSideDuty (d : Nat) : Nat :=
  (32767 + d / 2) % 65536

/-- lowSideDutyCycle computation of BLDC_commutate (source line 341):
32767 - (dutyCycle >> 1) in promoted int arithmetic, converted back to
uint16_t (reduction mod 65536 of the possibly negative difference). -/
def lowSideDuty (d : Nat) : Nat :=
  (((32767 : Int) - (d / 2 : Nat)) % 65536).toNat

/-- BLDC_commutate (source lines 303-384): advance the sector, program
the three phases from the fixed tables, record the dormant phase, and in
BLDC_STARTING stamp the commutation time. Returns the updated motor and
the emitted MPWM commands. -/
def BLDC_commutate (m : Motor) (now : Nat) : Motor × List PwmCmd :=
  let s1 := advanceSector m.direction m.sector
  let outs : List PwmCmd :=
    [(dormantPhaseTable s1, .dormantMode, m.dutyCycle),
     (hiPhaseTable s1, .hiState, highSideDuty m.dutyCycle),
     (loPhaseTable s1, .hiState, lowSideDuty m.dutyCycle)]
  ({ m with
      sector := s1
      dormantPhasePtr := dormantPhaseTable s1
      startCommutationTimeAbs :=
        if m.state = .starting then now else m.startCommutationTimeAbs },
   outs)

/-- BLDC_determineSector (source lines 213-247): in BLDC_HALL, resample
the hall inputs and write table[code] into the sector; in
BLDC_SENSORLESS do nothing. -/
def BLDC_determineSector (m : Motor) (h0 h1 h2 : Bool) : Motor :=
  match m.sensor with
  | .sensorless => m
  | .hall => { m with sector := (m.hallToSector (hallCode h0 h1 h2) : Int) }

/-- BLDC_stopMotor (source lines 188-200): drive all three phases
dormant at zero duty and enter BLDC_STOPPED. -/
def BLDC_stopMotor (m : Motor) : Motor × List PwmCmd :=
  ({ m with state := .stopped },
   [(some .phA, .dormantMode, 0),
    (some .phB, .dormantMode, 0),
    (some .phC, .dormantMode, 0)])

/-- BLDC_startMotor (source lines 154-174). The third component counts
the commutations issued during the call. -/
def BLDC_startMotor (m : Motor) (cmd : Command) (now : Nat) (h0 h1 h2 : Bool) :
    Motor × List PwmCmd × Nat :=
  if m.state = .stopped then
    let m1 : Motor :=
      { m with sector := 0, state := .starting, startTimeAbs := now,
               dutyCycle := BLDC_MIN_DUTY_CYCLE, direction := cmd.direction }
    let m2 := BLDC_determineSector m1 h0 h1 h2
    let r := BLDC_commutate m2 now
    (r.1, r.2, 1)
  else (m, [], 0)

/-- BLDC_commandDutyCycle (source lines 263-268); the uint16_t parameter
truncates the caller's value. -/
def BLDC_commandDutyCycle (c : Command) (d : Nat) : Command :=
  { c with dutyCycle := d % 65536 }

/-- BLDC_commandDirection (source lines 283-288). -/
def BLDC_commandDirection (c : Command) (d : Direction) : Command :=
  { c with direction := d }

/-- BLDC_getMotorState (source lines 398-402). -/
def BLDC_getMotorState (m : Motor) : MotorState :=
  m.state

/-- BLDC_initPositionSensors (source lines 111-140): sample the hall
inputs once; on a valid code select BLDC_HALL and copy the configured
table row (global hallTableUtilized, modelled as the parameter t). -/
def BLDC_initPositionSensors (m : Motor) (h0 h1 h2 : Bool) (t : Fin 12) : Motor :=
  let hallValue := hallCode h0 h1 h2
  if hallValue ≠ 0 ∧ hallValue ≠ 7 then
    { m with sensor := .hall, hallToSector := fun i => hallToSectorTable t i }
  else m

/-- BLDC_initMotor (source lines 80-97): stop the motor, command the
positive direction, initialize the position sensors. -/
def BLDC_initMotor (m : Motor) (c : Command) (h0 h1 h2 : Bool) (t : Fin 12) :
    Motor × Command × List PwmCmd :=
  let s := BLDC_stopMotor m
  let c1 := BLDC_commandDirection c Direction.pos
  let m2 := BLDC_initPositionSensors s.1 h0 h1 h2 t
  (m2, c1, s.2)

/-- BLDC_adcInterrupt (source lines 416-497): store the fresh phase
samples, then dispatch on the motor state. The result pairs the updated
motor with the number of commutations issued; none models the NULL
dereference of the dormant-phase pointer in BLDC_STARTING. -/
def BLDC_adcInterrupt (m : Motor) (pa pb pc vbus now : Nat) :
    Option (Motor × Nat) :=
  let m0 : Motor := { m with phaseA := pa, phaseB := pb, phaseC := pc }
  let neutralVoltage := vbus / 2
  match m0.state with
  | .locked =>
      if now > m0.lockUntilTimeAbs then some ({ m0 with state := .stopped }, 0)
      else some (m0, 0)
  | .stopped => some (m0, 0)
  | .starting =>
      match m0.dormantPhasePtr with
      | none => none
      | some p =>
          let dormantV :=
            match p with
            | .phA => m0.phaseA
            | .phB => m0.phaseB
            | .phC => m0.phaseC
          let step1 : Motor × Nat :=
            if m0.sector % 2 = 1 then
              if dormantV < neutralVoltage then ((BLDC_commutate m0 now).1, 1)
              else (m0, 0)
            else
              if dormantV > neutralVoltage then ((BLDC_commutate m0 now).1, 1)
              else (m0, 0)
          if step1.1.startCommutationTimeAbs + 25 < now then
            some ((BLDC_commutate step1.1 now).1, step1.2 + 1)
          else
            some step1
  | .running => some (m0, 0)

/-- Iterated sector advance starting from sector 0. -/
def sectorIter (d : Direction) (n : Nat) : Int :=
  (advanceSector d)^[n] 0

/-- A concrete motor value used to instantiate theorems on explicit inputs. -/
def sampleMotor : Motor :=
  { state := .starting, sector := 2, dutyCycle := 5000, startTimeAbs := 100,
    startCommutationTimeAbs := 100, lockUntilTimeAbs := 0, phaseA := 0, phaseB := 0,
    phaseC := 0, dormantPhasePtr := some .phA, direction := .pos,
    sensor := .hall, hallToSector := fun i => hallToSectorTable 0 i }

theorem advanceSector_pos_emod (s : Int) (hlo : 0 ≤ s) (hhi : s ≤ 5) :
    advanceSector .pos s = (s + 1) % 6 := by
  simp only [advanceSector]
  split <;> omega

theorem advanceSector_neg_emod (s : Int) (hlo : 0 ≤ s) (hhi : s ≤ 5) :
    advanceSector .neg s = (s + 5) % 6 := by
  simp only [advanceSector]
  split <;> omega

theorem sectorIter_pos (n : Nat) : sectorIter .pos n = (n : Int) % 6 := by
  induction n with
  | zero => simp [sectorIter]
  | succ k ih =>
      have hstep : sectorIter .pos (k + 1) = advanceSector .pos (sectorIter .pos k) := by
        simp [sectorIter, Function.iterate_succ_apply']
      rw [hstep, ih, advanceSector_pos_emod ((k : Int) % 6) (by omega) (by omega)]
      push_cast
      omega

theorem sectorIter_neg (n : Nat) : sectorIter .neg n = (-(n : Int)) % 6 := by
  induction n with
  | zero => simp [sectorIter]
  | succ k ih =>
      have hstep : sectorIter .neg (k + 1) = advanceSector .neg (sectorIter .neg k) := by
        simp [sectorIter, Function.iterate_succ_apply']
      rw [hstep, ih, advanceSector_neg_emod ((-(k : Int)) % 6) (by omega) (by omega)]
      push_cast
      omega

/-- C5: BLDC_commutate advances the sector by (sector+1) mod 6 under
BLDC_POS and by (sector+5) mod 6 under the negative direction, for every
sector in [0,5]; iterating from sector 0 visits 0,1,2,3,4,5 with period
6 under Positive and the exact reverse 0,5,4,3,2,1 under Negative. -/
theorem commutate_sector_advance_formula (m : Motor) (now : Nat)
    (hlo : 0 ≤ m.sector) (hhi : m.sector ≤ 5) :
    (BLDC_commutate m now).1.sector = advanceSector m.direction m.sector ∧
    advanceSector .pos m.sector = (m.sector + 1) % 6 ∧
    advanceSector .neg m.sector = (m.sector + 5) % 6 ∧
    (∀ n : Nat, sectorIter .pos n = (n : Int) % 6) ∧
    (∀ n : Nat, sectorIter .neg n = (-(n : Int)) % 6) ∧
    (List.range 6).map (sectorIter .pos) = [0, 1, 2, 3, 4, 5] ∧
    (List.range 6).map (sectorIter .neg) = [0, 5, 4, 3, 2, 1] ∧
    (∀ (d : Direction) (n : Nat), sectorIter d (n + 6) = sectorIter d n) := by
  refine ⟨rfl, advanceSector_pos_emod _ hlo hhi, advanceSector_neg_emod _ hlo hhi,
    sectorIter_pos, sectorIter_neg, by decide, by decide, ?_⟩
  intro d n
  cases d
  · rw [sectorIter_pos, sectorIter_pos]
    push_cast
    omega
  · rw [sectorIter_neg, sectorIter_neg]
    push_cast
    omega

/-- Witness for C5 at the concrete motor sampleMotor and time 130. -/
theorem commutate_sector_advance_formula_witness :
    (BLDC_commutate sampleMotor 130).1.sector = advanceSector Direction.pos 2 := by
  have h := commutate_sector_advance_formula sampleMotor 130 (by decide) (by decide)
  exact h.1

/-- C6: BLDC_commutate assigns phase roles through the fixed,
direction-independent tables sector to (high, low, dormant): 0 gives
(A,B,C), 1 gives (A,C,B), 2 gives (B,C,A), 3 gives (B,A,C), 4 gives
(C,A,B), 5 gives (C,B,A); on every sector in [0,5] the three roles are
pairwise distinct, hence a permutation of the three phases. -/
theorem commutate_phase_table_spec (m : Motor) (now : Nat)
    (hlo : 0 ≤ m.sector) (hhi : m.sector ≤ 5) :
    (BLDC_commutate m now).2.map Prod.fst =
      [dormantPhaseTable (advanceSector m.direction m.sector),
       hiPhaseTable (advanceSector m.direction m.sector),
       loPhaseTable (advanceSector m.direction m.sector)] ∧
    (hiPhaseTable 0, loPhaseTable 0, dormantPhaseTable 0) = (some .phA, some .phB, some .phC) ∧
    (hiPhaseTable 1, loPhaseTable 1, dormantPhaseTable 1) = (some .phA, some .phC, some .phB) ∧
    (hiPhaseTable 2, loPhaseTable 2, dormantPhaseTable 2) = (some .phB, some .phC, some .phA) ∧
    (hiPhaseTable 3, loPhaseTable 3, dormantPhaseTable 3) = (some .phB, some .phA, some .phC) ∧
    (hiPhaseTable 4, loPhaseTable 4, dormantPhaseTable 4) = (some .phC, some .phA, some .phB) ∧
    (hiPhaseTable 5, loPhaseTable 5, dormantPhaseTable 5) = (some .phC, some .phB, some .phA) ∧
    (∀ s : Int, 0 ≤ s → s ≤ 5 →
      hiPhaseTable s ≠ loPhaseTable s ∧ hiPhaseTable s ≠ dormantPhaseTable s ∧
      loPhaseTable s ≠ dormantPhaseTable s) := by
  refine ⟨rfl, by decide, by decide, by decide, by decide, by decide, by decide, ?_⟩
  intro s h0 h5
  have hs : s = 0 ∨ s = 1 ∨ s = 2 ∨ s = 3 ∨ s = 4 ∨ s = 5 := by omega
  rcases hs with rfl | rfl | rfl | rfl | rfl | rfl <;> exact (by decide)

/-- Witness for C6 at the concrete motor sampleMotor and time 130. -/
theorem commutate_phase_table_spec_witness :
    (BLDC_commutate sampleMotor 130).2.map Prod.fst =
      [dormantPhaseTable (advanceSector Direction.pos 2),
       hiPhaseTable (advanceSector Direction.pos 2),
       loPhaseTable (advanceSector Direction.pos 2)] := by
  have h := commutate_phase_table_spec sampleMotor 130 (by decide) (by decide)
  exact h.1

/-- C7: for every dutyCycle at most 65535 the high-side and low-side
duty values of BLDC_commutate sum to exactly 65534 in uint16_t
arithmetic, both equal 32767 plus, resp. minus, dutyCycle >> 1, and
neither computation overflows. -/
theorem commutate_duty_split_exact (d : Nat) (hd : d ≤ 65535) :
    highSideDuty d + lowSideDuty d = 65534 ∧
    highSideDuty d = 32767 + d / 2 ∧
    lowSideDuty d = 32767 - d / 2 ∧
    32767 + d / 2 < 65536 ∧
    d / 2 ≤ 32767 := by
  unfold highSideDuty lowSideDuty
  omega

/-- Witness for C7 at the extreme dutyCycle 65535. -/
theorem commutate_duty_split_exact_witness :
    highSideDuty 65535 + lowSideDuty 65535 = 65534 ∧
    highSideDuty 65535 = 32767 + 65535 / 2 ∧
    lowSideDuty 65535 = 32767 - 65535 / 2 ∧
    32767 + 65535 / 2 < 65536 ∧
    65535 / 2 ≤ 32767 :=
  commutate_duty_split_exact 65535 (by decide)

theorem determineSector_fields (m : Motor) (h0 h1 h2 : Bool) :
    (BLDC_determineSector m h0 h1 h2).state = m.state ∧
    (BLDC_determineSector m h0 h1 h2).dutyCycle = m.dutyCycle ∧
    (BLDC_determineSector m h0 h1 h2).direction = m.direction ∧
    (BLDC_determineSector m h0 h1 h2).startTimeAbs = m.startTimeAbs ∧
    (BLDC_determineSector m h0 h1 h2).sensor = m.sensor ∧
    (BLDC_determineSector m h0 h1 h2).hallToSector = m.hallToSector := by
  unfold BLDC_determineSector
  cases hs : m.sensor <;> simp [hs]

/-- The field reset performed by BLDC_startMotor before sensing and
commutating (source lines 161-167). -/
def startReset (m : Motor) (cmd : Command) (now : Nat) : Motor :=
  { m with sector := 0, state := .starting, startTimeAbs := now,
           dutyCycle := BLDC_MIN_DUTY_CYCLE, direction := cmd.direction }

/-- C8: BLDC_stopMotor is unconditional and idempotent: from any motor
state it drives all three phases dormant at zero duty, enters
BLDC_STOPPED, and a second call yields the identical drive outputs and
the identical motor, still stopped. -/
theorem stopMotor_unconditional_idempotent (m : Motor) :
    (BLDC_stopMotor m).1.state = .stopped ∧
    (BLDC_stopMotor m).2 =
      [(some .phA, .dormantMode, 0), (some .phB, .dormantMode, 0),
       (some .phC, .dormantMode, 0)] ∧
    BLDC_stopMotor ((BLDC_stopMotor m).1) = BLDC_stopMotor m ∧
    (BLDC_stopMotor ((BLDC_stopMotor m).1)).2 = (BLDC_stopMotor m).2 ∧
    (BLDC_stopMotor ((BLDC_stopMotor m).1)).1.state = .stopped := by
  refine ⟨rfl, rfl, ?_, rfl, rfl⟩
  simp [BLDC_stopMotor]

/-- C4: BLDC_startMotor acts only from BLDC_STOPPED, where it performs
the documented reset, determines the initial sector through the position
sensor, issues exactly one commutation, and leaves the motor Starting at
the fixed minimum startup duty (not the commanded duty) with the
commanded direction and the start time stamped; from any other state it
is a no-op with no emitted commands and no commutation. -/
theorem startMotor_spec (m : Motor) (cmd : Command) (now : Nat) (h0 h1 h2 : Bool) :
    (m.state = .stopped →
      BLDC_startMotor m cmd now h0 h1 h2 =
        ((BLDC_commutate (BLDC_determineSector (startReset m cmd now) h0 h1 h2) now).1,
         (BLDC_commutate (BLDC_determineSector (startReset m cmd now) h0 h1 h2) now).2,
         1) ∧
      (BLDC_startMotor m cmd now h0 h1 h2).2.2 = 1 ∧
      (BLDC_startMotor m cmd now h0 h1 h2).1.state = .starting ∧
      (BLDC_startMotor m cmd now h0 h1 h2).1.dutyCycle = BLDC_MIN_DUTY_CYCLE ∧
      (cmd.dutyCycle ≠ BLDC_MIN_DUTY_CYCLE →
        (BLDC_startMotor m cmd now h0 h1 h2).1.dutyCycle ≠ cmd.dutyCycle) ∧
      (BLDC_startMotor m cmd now h0 h1 h2).1.direction = cmd.direction ∧
      (BLDC_startMotor m cmd now h0 h1 h2).1.startTimeAbs = now) ∧
    (m.state ≠ .stopped →
      BLDC_startMotor m cmd now h0 h1 h2 = (m, [], 0)) := by
  constructor
  · intro h
    have heq : BLDC_startMotor m cmd now h0 h1 h2 =
        ((BLDC_commutate (BLDC_determineSector (startReset m cmd now) h0 h1 h2) now).1,
         (BLDC_commutate (BLDC_determineSector (startReset m cmd now) h0 h1 h2) now).2,
         1) := by
      simp [BLDC_startMotor, h, startReset]
    have hf := determineSector_fields (startReset m cmd now) h0 h1 h2
    refine ⟨heq, by rw [heq], ?_, ?_, ?_, ?_, ?_⟩
    · rw [heq]
      exact hf.1
    · rw [heq]
      exact hf.2.1
    · intro hne
      rw [heq]
      have : (BLDC_commutate (BLDC_determineSector (startReset m cmd now) h0 h1 h2)
          now).1.dutyCycle = BLDC_MIN_DUTY_CYCLE := hf.2.1
      rw [this]
      exact fun hc => hne hc.symm
    · rw [heq]
      exact hf.2.2.1
    · rw [heq]
      exact hf.2.2.2.1
  · intro h
    simp [BLDC_startMotor, h]

/-- Witness for C4: a stopped motor started with commanded duty 5000 and
a motor already Starting on which startMotor is a no-op. -/
theorem startMotor_spec_witness :
    BLDC_startMotor { sampleMotor with state := .stopped }
        { direction := .pos, dutyCycle := 5000 } 7 false true false =
      ((BLDC_commutate (BLDC_determineSector
          (startReset { sampleMotor with state := .stopped }
            { direction := .pos, dutyCycle := 5000 } 7) false true false) 7).1,
       (BLDC_commutate (BLDC_determineSector
          (startReset { sampleMotor with state := .stopped }
            { direction := .pos, dutyCycle := 5000 } 7) false true false) 7).2,
       1) ∧
    BLDC_startMotor sampleMotor { direction := .pos, dutyCycle := 5000 } 7 false true false =
      (sampleMotor, [], 0) := by
  constructor
  · exact ((startMotor_spec { sampleMotor with state := .stopped }
      { direction := .pos, dutyCycle := 5000 } 7 false true false).1 rfl).1
  · exact (startMotor_spec sampleMotor
      { direction := .pos, dutyCycle := 5000 } 7 false true false).2 (by decide)

/-- C9: in BLDC_LOCKED the sampling handler moves the motor to
BLDC_STOPPED exactly when the current time is strictly greater than the
lock-expiry time; on every event at or before expiry the motor stays
BLDC_LOCKED with only the fresh phase samples stored and no commutation
issued. -/
theorem adcInterrupt_locked_transition (m : Motor) (pa pb pc vbus now : Nat)
    (hs : m.state = .locked) :
    (now ≤ m.lockUntilTimeAbs →
      BLDC_adcInterrupt m pa pb pc vbus now =
        some ({ m with phaseA := pa, phaseB := pb, phaseC := pc }, 0)) ∧
    (m.lockUntilTimeAbs < now →
      BLDC_adcInterrupt m pa pb pc vbus now =
        some ({ m with phaseA := pa, phaseB := pb, phaseC := pc,
                       state := .stopped }, 0)) := by
  constructor
  · intro hn
    have hlt : ¬ (m.lockUntilTimeAbs < now) := by omega
    simp [BLDC_adcInterrupt, hs, hlt]
  · intro hn
    simp [BLDC_adcInterrupt, hs, hn]

/-- A concrete locked motor used to instantiate the lock-expiry theorem. -/
def lockedMotor : Motor :=
  { sampleMotor with state := .locked, lockUntilTimeAbs := 500 }

/-- Witness for C9 at lock expiry 500: no transition at time 400, the
transition to BLDC_STOPPED at time 501. -/
theorem adcInterrupt_locked_transition_witness :
    BLDC_adcInterrupt lockedMotor 1 2 3 4 400 =
      some ({ lockedMotor with phaseA := 1, phaseB := 2, phaseC := 3 }, 0) ∧
    BLDC_adcInterrupt lockedMotor 1 2 3 4 501 =
      some ({ lockedMotor with phaseA := 1, phaseB := 2, phaseC := 3,
                               state := .stopped }, 0) := by
  constructor
  · exact (adcInterrupt_locked_transition lockedMotor 1 2 3 4 400 rfl).1 (by decide)
  · exact (adcInterrupt_locked_transition lockedMotor 1 2 3 4 501 rfl).2 (by decide)

theorem commutate_stamps_time (mm : Motor) (now : Nat) (hmm : mm.state = .starting) :
    (BLDC_commutate mm now).1.startCommutationTimeAbs = now := by
  simp [BLDC_commutate, hmm]

/-- C3: in BLDC_STARTING each sampling event issues at most one
commutation, even when the zero-crossing condition and the 25 ms stall
condition both hold, because a zero-crossing commutation restamps the
last-commutation time before the stall test reads it; and whenever more
than 25 ms have elapsed since the last commutation the event issues
exactly one commutation regardless of the voltage comparison. -/
theorem adcInterrupt_starting_at_most_one_commutation
    (m : Motor) (pa pb pc vbus now : Nat) (p : Phase)
    (hs : m.state = .starting) (hp : m.dormantPhasePtr = some p) :
    ∃ m' k, BLDC_adcInterrupt m pa pb pc vbus now = some (m', k) ∧
      k ≤ 1 ∧ (m.startCommutationTimeAbs + 25 < now → k = 1) := by
  simp only [BLDC_adcInterrupt, hs, hp]
  split_ifs
  all_goals try dsimp only at *
  all_goals try simp only [commutate_stamps_time] at *
  all_goals
    first
      | (exfalso; omega)
      | exact ⟨_, _, rfl, by omega, fun hst => rfl⟩
      | exact ⟨_, _, rfl, by omega, fun hst => by exfalso; omega⟩

/-- Witness for C3 at sampleMotor, 175 ms past the last commutation. -/
theorem adcInterrupt_starting_at_most_one_commutation_witness :
    ∃ m' k, BLDC_adcInterrupt sampleMotor 10 20 30 40 200 = some (m', k) ∧
      k ≤ 1 ∧ (sampleMotor.startCommutationTimeAbs + 25 < 200 → k = 1) :=
  adcInterrupt_starting_at_most_one_commutation sampleMotor 10 20 30 40 200
    Phase.phA rfl rfl

/-- C2 (divergence of the code from the specification): at a runtime
hall code of 0 (all inputs low) or 7 (all inputs high) BLDC_determineSector
silently writes the sentinel table value 6 into the sector and leaves
the motor state untouched, instead of surfacing a fault that forces
BLDC_LOCKED as the specification requires. -/
theorem determineSector_code0_sentinel :
    (BLDC_determineSector sampleMotor false false false).sector = 6 ∧
    (BLDC_determineSector sampleMotor true true true).sector = 6 ∧
    (BLDC_determineSector sampleMotor false false false).state = .starting ∧
    (BLDC_determineSector sampleMotor false false false).state ≠ .locked := by
  refine ⟨by decide, by decide, by decide, by decide⟩

/-- C1 counterexample: BLDC_determineSector does not preserve the sector
range on the hall code 0: from the in-range sector 2 of sampleMotor it
writes the out-of-range sentinel 6. -/
theorem determineSector_breaks_sector_range :
    (0 ≤ sampleMotor.sector ∧ sampleMotor.sector ≤ 5) ∧
    ¬ (0 ≤ (BLDC_determineSector sampleMotor false false false).sector ∧
       (BLDC_determineSector sampleMotor false false false).sector ≤ 5) := by
  decide

/-- The zero-initialized global BLDC_motor before BLDC_initMotor runs:
C statics start at zero, giving BLDC_STOPPED, sector 0, BLDC_SENSORLESS,
a NULL dormant pointer and an all-zero table. -/
def initialMotor : Motor :=
  { state := .stopped, sector := 0, dutyCycle := 0, startTimeAbs := 0,
    startCommutationTimeAbs := 0, lockUntilTimeAbs := 0, phaseA := 0,
    phaseB := 0, phaseC := 0, dormantPhasePtr := none, direction := .pos,
    sensor := .sensorless, hallToSector := fun _ => 0 }

/-- States of the motor aggregate reachable through the public command
surface and the sampling interrupt, starting from the zero-initialized
global passed through BLDC_initMotor. -/
inductive Reachable : Motor → Prop where
  | init (c : Command) (h0 h1 h2 : Bool) (t : Fin 12) :
      Reachable (BLDC_initMotor initialMotor c h0 h1 h2 t).1
  | start (m : Motor) (cmd : Command) (now : Nat) (h0 h1 h2 : Bool) :
      Reachable m → Reachable (BLDC_startMotor m cmd now h0 h1 h2).1
  | stop (m : Motor) : Reachable m → Reachable (BLDC_stopMotor m).1
  | adc (m m' : Motor) (pa pb pc vbus now k : Nat) :
      Reachable m → BLDC_adcInterrupt m pa pb pc vbus now = some (m', k) →
      Reachable m'

/-- Inductive invariant: the sector lies in [0,5] and, once hall sensing
is selected, the loaded table row maps every 3-bit code to at most 6 and
every valid code 1..6 into [0,5]. -/
def MotorInv (m : Motor) : Prop :=
  (0 ≤ m.sector ∧ m.sector ≤ 5) ∧
  (m.sensor = .hall →
    ∀ i : Nat, i < 8 → m.hallToSector i ≤ 6 ∧
      (1 ≤ i → i ≤ 6 → m.hallToSector i ≤ 5))

theorem hallCode_lt (b0 b1 b2 : Bool) : hallCode b0 b1 b2 < 8 := by
  cases b0 <;> cases b1 <;> cases b2 <;> decide

theorem hallToSectorTable_valid (t : Fin 12) (i : Nat) (hi : i < 8) :
    hallToSectorTable t i ≤ 6 ∧ (1 ≤ i → i ≤ 6 → hallToSectorTable t i ≤ 5) := by
  have h : ∀ (u : Fin 12) (j : Fin 8), hallToSectorTable u j.val ≤ 6 ∧
      (1 ≤ j.val → j.val ≤ 6 → hallToSectorTable u j.val ≤ 5) := by decide
  exact h t ⟨i, hi⟩

theorem advanceSector_range (d : Direction) (s : Int) (h0 : 0 ≤ s) (h6 : s ≤ 6) :
    0 ≤ advanceSector d s ∧ advanceSector d s ≤ 5 := by
  cases d <;> simp only [advanceSector] <;> constructor <;> split <;> omega

theorem commutate_inv_of_le6 (m : Motor) (now : Nat)
    (h0 : 0 ≤ m.sector) (h6 : m.sector ≤ 6)
    (hrow : m.sensor = .hall →
      ∀ i : Nat, i < 8 → m.hallToSector i ≤ 6 ∧
        (1 ≤ i → i ≤ 6 → m.hallToSector i ≤ 5)) :
    MotorInv (BLDC_commutate m now).1 := by
  refine ⟨?_, fun hh i hi => hrow hh i hi⟩
  have := advanceSector_range m.direction m.sector h0 h6
  simpa [BLDC_commutate] using this

theorem commutate_preserves_inv (m : Motor) (now : Nat) (h : MotorInv m) :
    MotorInv (BLDC_commutate m now).1 := by
  obtain ⟨⟨h0, h5⟩, hrow⟩ := h
  exact commutate_inv_of_le6 m now h0 (by omega) hrow

theorem startMotor_preserves_inv (m : Motor) (cmd : Command) (now : Nat)
    (b0 b1 b2 : Bool) (h : MotorInv m) :
    MotorInv (BLDC_startMotor m cmd now b0 b1 b2).1 := by
  obtain ⟨hr, hrow⟩ := h
  by_cases hs : m.state = .stopped
  · simp only [BLDC_startMotor, if_pos hs]
    rcases hsen : m.sensor with _ | _
    · refine commutate_inv_of_le6 _ now ?_ ?_ ?_
      · simp [BLDC_determineSector, hsen]
      · simp [BLDC_determineSector, hsen]
      · intro hh i hi
        simp only [BLDC_determineSector, hsen] at hh
        exact absurd hh (by decide)
    · have hcode := hallCode_lt b0 b1 b2
      have hval := hrow hsen (hallCode b0 b1 b2) hcode
      refine commutate_inv_of_le6 _ now ?_ ?_ ?_
      · simp [BLDC_determineSector, hsen]
      · simp only [BLDC_determineSector, hsen]
        exact_mod_cast hval.1
      · intro hh i hi
        simp only [BLDC_determineSector, hsen] at hh ⊢
        exact hrow hsen i hi
  · simp only [BLDC_startMotor, if_neg hs]
    exact ⟨hr, hrow⟩

theorem adcInterrupt_preserves_inv (m m' : Motor) (pa pb pc vbus now k : Nat)
    (h : MotorInv m) (he : BLDC_adcInterrupt m pa pb pc vbus now = some (m', k)) :
    MotorInv m' := by
  obtain ⟨⟨h0, h5⟩, hrow⟩ := h
  have hm0 : MotorInv ({ m with phaseA := pa, phaseB := pb, phaseC := pc } : Motor) :=
    ⟨⟨h0, h5⟩, fun hh i hi => hrow hh i hi⟩
  rcases hst : m.state with _ | _ | _ | _
  · simp only [BLDC_adcInterrupt, hst] at he
    obtain ⟨rfl, rfl⟩ : _ ∧ _ := by
      simpa using he
    exact hm0
  · rcases hdp : m.dormantPhasePtr with _ | p
    · simp [BLDC_adcInterrupt, hst, hdp] at he
    · simp only [BLDC_adcInterrupt, hst, hdp] at he
      split_ifs at he <;>
        simp only [Option.some.injEq, Prod.mk.injEq] at he <;>
        obtain ⟨rfl, rfl⟩ := he <;>
        first
          | exact commutate_preserves_inv _ _ (commutate_preserves_inv _ _ hm0)
          | exact commutate_preserves_inv _ _ hm0
          | exact hm0
  · simp only [BLDC_adcInterrupt, hst] at he
    obtain ⟨rfl, rfl⟩ : _ ∧ _ := by
      simpa using he
    exact hm0
  · simp only [BLDC_adcInterrupt, hst] at he
    split at he <;>
      simp only [Option.some.injEq, Prod.mk.injEq] at he <;>
      obtain ⟨rfl, rfl⟩ := he
    · exact ⟨⟨h0, h5⟩, fun hh i hi => hrow hh i hi⟩
    · exact hm0

theorem reachable_inv (m : Motor) (h : Reachable m) : MotorInv m := by
  induction h with
  | init c b0 b1 b2 t =>
      simp only [BLDC_initMotor, BLDC_initPositionSensors, BLDC_stopMotor,
        BLDC_commandDirection]
      split
      · exact ⟨⟨by norm_num [initialMotor], by norm_num [initialMotor]⟩,
          fun _ i hi => hallToSectorTable_valid t i hi⟩
      · exact ⟨⟨by norm_num [initialMotor], by norm_num [initialMotor]⟩,
          fun hh => by simp [initialMotor] at hh⟩
  | start m cmd now b0 b1 b2 hr ih =>
      exact startMotor_preserves_inv m cmd now b0 b1 b2 ih
  | stop m hr ih =>
      exact ⟨⟨ih.1.1, ih.1.2⟩, fun hh i hi => ih.2 hh i hi⟩
  | adc m m' pa pb pc vbus now k hr he ih =>
      exact adcInterrupt_preserves_inv m m' pa pb pc vbus now k ih he

/-- C1 (amended): every reachable state of the motor aggregate keeps the
sector in [0,5]; BLDC_commutate, BLDC_startMotor and the sampling
handler preserve the range, and BLDC_determineSector preserves it on
every valid hall code (neither 0 nor 7); on codes 0 and 7 it instead
writes the sentinel 6, which the commutation issued immediately
afterwards inside startMotor renormalizes into [0,5]. -/
theorem sector_range_invariant :
    (∀ m : Motor, Reachable m → 0 ≤ m.sector ∧ m.sector ≤ 5) ∧
    (∀ (m : Motor) (now : Nat), 0 ≤ m.sector → m.sector ≤ 5 →
      0 ≤ (BLDC_commutate m now).1.sector ∧ (BLDC_commutate m now).1.sector ≤ 5) ∧
    (∀ (m : Motor) (cmd : Command) (now : Nat) (b0 b1 b2 : Bool), MotorInv m →
      0 ≤ (BLDC_startMotor m cmd now b0 b1 b2).1.sector ∧
        (BLDC_startMotor m cmd now b0 b1 b2).1.sector ≤ 5) ∧
    (∀ (m m' : Motor) (pa pb pc vbus now k : Nat), MotorInv m →
      BLDC_adcInterrupt m pa pb pc vbus now = some (m', k) →
      0 ≤ m'.sector ∧ m'.sector ≤ 5) ∧
    (∀ (m : Motor) (b0 b1 b2 : Bool), MotorInv m →
      hallCode b0 b1 b2 ≠ 0 → hallCode b0 b1 b2 ≠ 7 →
      0 ≤ (BLDC_determineSector m b0 b1 b2).sector ∧
        (BLDC_determineSector m b0 b1 b2).sector ≤ 5) := by
  refine ⟨fun m h => (reachable_inv m h).1, ?_, ?_, ?_, ?_⟩
  · intro m now h0 h5
    have := advanceSector_range m.direction m.sector h0 (by omega)
    simpa [BLDC_commutate] using this
  · intro m cmd now b0 b1 b2 hm
    exact (startMotor_preserves_inv m cmd now b0 b1 b2 hm).1
  · intro m m' pa pb pc vbus now k hm he
    exact (adcInterrupt_preserves_inv m m' pa pb pc vbus now k hm he).1
  · intro m b0 b1 b2 hm hne0 hne7
    obtain ⟨⟨h0, h5⟩, hrow⟩ := hm
    rcases hsen : m.sensor with _ | _
    · simp only [BLDC_determineSector, hsen]
      exact ⟨h0, h5⟩
    · have hcode := hallCode_lt b0 b1 b2
      have hv := (hrow hsen (hallCode b0 b1 b2) hcode).2 (by omega) (by omega)
      simp only [BLDC_determineSector, hsen]
      exact ⟨Int.natCast_nonneg _, by exact_mod_cast hv⟩

/-- Witness for C1: the state BLDC_initMotor reaches from the
zero-initialized global with hall inputs reading code 2 has its sector
in [0,5]. -/
theorem sector_range_invariant_witness :
    0 ≤ (BLDC_initMotor initialMotor { direction := .pos, dutyCycle := 0 }
        false true false 0).1.sector ∧
    (BLDC_initMotor initialMotor { direction := .pos, dutyCycle := 0 }
        false true false 0).1.sector ≤ 5 :=
  sector_range_invariant.1 _
    (Reachable.init { direction := .pos, dutyCycle := 0 } false true false 0)

theorem phaseTables_isSome (s : Int) (h0 : 0 ≤ s) (h5 : s ≤ 5) :
    (hiPhaseTable s).isSome ∧ (loPhaseTable s).isSome ∧
      (dormantPhaseTable s).isSome := by
  have hs : s = 0 ∨ s = 1 ∨ s = 2 ∨ s = 3 ∨ s = 4 ∨ s = 5 := by omega
  rcases hs with rfl | rfl | rfl | rfl | rfl | rfl <;> exact (by decide)

/-- C10: BLDC_commutate is total on sectors in [0,6] including the hall
sentinel 6: the sector is advanced and wrapped before the tables are
indexed, a sentinel 6 becomes 0 under BLDC_POS and 5 under the negative
direction, the 6-entry phase tables are only ever indexed in [0,5], and
the dormant-phase pointer is always assigned a real phase, never the
NULL default. -/
theorem commutate_total_on_sentinel (m : Motor) (now : Nat)
    (h0 : 0 ≤ m.sector) (h6 : m.sector ≤ 6) :
    (0 ≤ (BLDC_commutate m now).1.sector ∧ (BLDC_commutate m now).1.sector ≤ 5) ∧
    (m.sector = 6 → m.direction = .pos → (BLDC_commutate m now).1.sector = 0) ∧
    (m.sector = 6 → m.direction = .neg → (BLDC_commutate m now).1.sector = 5) ∧
    (hiPhaseTable (advanceSector m.direction m.sector)).isSome ∧
    (loPhaseTable (advanceSector m.direction m.sector)).isSome ∧
    (dormantPhaseTable (advanceSector m.direction m.sector)).isSome ∧
    (BLDC_commutate m now).1.dormantPhasePtr ≠ none ∧
    (∀ c ∈ (BLDC_commutate m now).2, c.1 ≠ none) := by
  have hadv := advanceSector_range m.direction m.sector h0 h6
  have htab := phaseTables_isSome _ hadv.1 hadv.2
  refine ⟨?_, ?_, ?_, htab.1, htab.2.1, htab.2.2, ?_, ?_⟩
  · simpa [BLDC_commutate] using hadv
  · intro hs hd
    simp [BLDC_commutate, hs, hd, advanceSector]
  · intro hs hd
    simp [BLDC_commutate, hs, hd, advanceSector]
  · simpa [BLDC_commutate, Option.isSome_iff_ne_none] using htab.2.2
  · intro c hc
    simp only [BLDC_commutate, List.mem_cons, List.not_mem_nil, or_false] at hc
    rcases hc with rfl | rfl | rfl
    · simpa [Option.isSome_iff_ne_none] using htab.2.2
    · simpa [Option.isSome_iff_ne_none] using htab.1
    · simpa [Option.isSome_iff_ne_none] using htab.2.1

/-- A motor holding the sentinel sector 6, as a hall fault writes it. -/
def sentinelMotor : Motor :=
  { sampleMotor with sector := 6 }

/-- Witness for C10 at the sentinel sector 6: the advanced sector is back
in range and the dormant pointer is assigned. -/
theorem commutate_total_on_sentinel_witness :
    (0 ≤ (BLDC_commutate sentinelMotor 130).1.sector ∧
      (BLDC_commutate sentinelMotor 130).1.sector ≤ 5) ∧
    (BLDC_commutate sentinelMotor 130).1.dormantPhasePtr ≠ none := by
  have h := commutate_total_on_sentinel sentinelMotor 130 (by decide) (by decide)
  exact ⟨h.1, h.2.2.2.2.2.2.1⟩
